import Mathlib

set_option maxHeartbeats 2000000
set_option maxRecDepth 4000

deriving instance DecidableEq for Except

/-!
Verification development for the tube-visibility-inspector resolution engine
(the Supabase edge function check-youtube-status).  Every definition below is a
shallow embedding of a function of the source file; external effects (YouTube
API calls, page fetches, the Postgres cache table) are passed in as explicit
data or as oracle functions, exactly at the granularity at which the source
consumes them.
-/

namespace Tvi

/-! ## String utilities (JS semantics helpers) -/

/-- Does `pat` match at the head of `l`?  (JS String.prototype.startsWith on char lists.) -/
def leadMatch : List Char → List Char → Bool
  | [], _ => true
  | _ :: _, [] => false
  | a :: as, b :: bs => a == b && leadMatch as bs

/-- Substring test on char lists: JS String.prototype.includes. -/
def hasSub (pat : List Char) : List Char → Bool
  | [] => leadMatch pat []
  | b :: bs => leadMatch pat (b :: bs) || hasSub pat bs

/-- JS s.includes(pat). -/
def strIncludes (s pat : String) : Bool := hasSub pat.toList s.toList

/-- parseInt on a nonempty digit string (radix 10). -/
def digitsToNat (ds : List Char) : Nat :=
  ds.foldl (fun n c => n * 10 + (c.toNat - 48)) 0

/-- Scan for the first occurrence of the literal "PT" and return the characters
after it; models the regex PT(?:(\d+)H)?(?:(\d+)M)?(?:(\d+)S)? finding its
first match (the optional groups always succeed, so the match site is the
first "PT"). -/
def findPT : List Char → Option (List Char)
  | [] => none
  | 'P' :: 'T' :: rest => some rest
  | _ :: rest => findPT rest

/-- One optional regex group (\d+)u : digits directly followed by the unit
letter, or a zero-width match that consumes nothing (regex backtracking). -/
def tryUnit (u : Char) (l : List Char) : Option Nat × List Char :=
  let ds := l.takeWhile Char.isDigit
  match ds, l.dropWhile Char.isDigit with
  | [], _ => (none, l)
  | _ :: _, [] => (none, l)
  | _ :: _, c :: cs => if c == u then (some (digitsToNat ds), cs) else (none, l)

/-- Source parseDuration: ISO 8601 duration (PT1M30S = 90); 0 when the regex
does not match. -/
def parseDuration (duration : String) : Nat :=
  match findPT duration.toList with
  | none => 0
  | some rest =>
    let hr := tryUnit 'H' rest
    let mr := tryUnit 'M' hr.2
    let sr := tryUnit 'S' mr.2
    hr.1.getD 0 * 3600 + mr.1.getD 0 * 60 + sr.1.getD 0

/-- JS (optionalString || defaultString): undefined and the empty string are
falsy, any other string is returned verbatim. -/
def jsOrStr : Option String → String → String
  | none, d => d
  | some s, d => if s = "" then d else s

/-! ## Data model -/

inductive ContentType where
  | video
  | short
deriving DecidableEq

/-- One element of data.items in the YouTube batch videos response, at the
fields the handler reads (snippet.title, status.privacyStatus,
snippet.thumbnails.default.url, snippet.publishedAt, contentDetails.duration).
Each field reached through ?. is an Option. -/
structure ApiItem where
  id : String
  title : Option String
  privacyStatus : Option String
  thumbnailUrl : Option String
  publishedAt : Option String
  duration : Option String
deriving DecidableEq

/-- The result object the handler builds per video. -/
structure VideoRecord where
  id : String
  title : String
  status : String
  thumbnail : Option String
  publishedAt : Option String
  contentType : ContentType
  duration : Option String
  fromCache : Bool
deriving DecidableEq

/-- The data column of a video_cache row: the result object minus fromCache
(the handler destructures fromCache away before caching). -/
structure CachedData where
  id : String
  title : String
  status : String
  thumbnail : Option String
  publishedAt : Option String
  contentType : ContentType
  duration : Option String
deriving DecidableEq

def VideoRecord.toCachedData (r : VideoRecord) : CachedData :=
  ⟨r.id, r.title, r.status, r.thumbnail, r.publishedAt, r.contentType, r.duration⟩

/-- Rebuild a result object from cached data: the spread pattern
(...item.data, fromCache). -/
def CachedData.toRecord (d : CachedData) (fromCache : Bool) : VideoRecord :=
  ⟨d.id, d.title, d.status, d.thumbnail, d.publishedAt, d.contentType, d.duration, fromCache⟩

/-- A row of the video_cache table. -/
structure CacheRow where
  video_id : String
  data : CachedData
  cached_at : Int
deriving DecidableEq

/-- The cache table keyed by video_id (primary key), timestamps as integer
milliseconds. -/
def Cache : Type := String → Option (CachedData × Int)

/-! ## JS object / Map / Set helpers -/

/-- Lookup in a JS object built by a sequence of assignments (an association
list in assignment order): the last assignment to a key wins. -/
def jsLookup (l : List (String × ContentType)) (k : String) : Option ContentType :=
  match l with
  | [] => none
  | p :: rest =>
    match jsLookup rest k with
    | some v => some v
    | none => if p.1 = k then some p.2 else none

/-- Lookup in a JS Map built from a pair list (new Map(pairs).get k): the last
pair with the key wins. -/
def mapGet (rs : List VideoRecord) (k : String) : Option VideoRecord :=
  match rs with
  | [] => none
  | r :: rest =>
    match mapGet rest k with
    | some v => some v
    | none => if r.id = k then some r else none

/-- JS Set insertion order: keep the first occurrence of each element. -/
def dedupFirstAux (seen : List String) : List String → List String
  | [] => []
  | x :: xs =>
    if x ∈ seen then dedupFirstAux seen xs else x :: dedupFirstAux (x :: seen) xs

def dedupFirst (l : List String) : List String := dedupFirstAux [] l

/-- forEach(id => if (!set.has(id)) set.add(id)) over l, starting from acc
(which is kept in insertion order). -/
def addAll (acc : List String) (l : List String) : List String :=
  l.foldl (fun a id => if id ∈ a then a else a ++ [id]) acc

/-! ## Scraping classifier for IDs missing from the batch response -/

/-- An apostrophe character, written by code point to keep it out of literals. -/
def apos : String := (Char.ofNat 39).toString

def deletedKeywords : List String :=
  ["isn" ++ apos ++ "t available", "unavailable", "deleted", "terminated",
   "no longer available"]

/-- Source checkMissingVideoStatusViaScraping.  The fetch of the single-video
watch page is passed in as its result: none models a failed fetch (the catch
branch), some html the page body. -/
def checkMissingVideoStatusViaScraping (page : Option String) : String :=
  match page with
  | none => "deleted"
  | some html =>
    if strIncludes html.toLower "private" then "private"
    else if deletedKeywords.any (fun kw => strIncludes html.toLower kw) then "deleted"
    else "deleted"

/-! ## Per-ID record construction (the body of batchPromises) -/

/-- new Map(data.items.map(item => [item.id, item])).get(videoId): the last
item with the id wins. -/
def apiLookup (items : List ApiItem) (videoId : String) : Option ApiItem :=
  match items with
  | [] => none
  | it :: rest =>
    match apiLookup rest videoId with
    | some v => some v
    | none => if it.id = videoId then some it else none

/-- The record built when the video is found in the API response. -/
def recordFromApi (types : List (String × ContentType)) (item : ApiItem)
    (videoId : String) : VideoRecord :=
  let duration := jsOrStr item.duration ""
  let contentType :=
    match jsLookup types videoId with
    | some t => t
    | none => if duration ≠ "" ∧ parseDuration duration ≤ 61 then .short else .video
  { id := videoId
    title := jsOrStr item.title "Unknown Title"
    status := jsOrStr item.privacyStatus "unknown"
    thumbnail := item.thumbnailUrl
    publishedAt := item.publishedAt
    contentType := contentType
    duration := some duration
    fromCache := false }

/-- The record built when the video is absent from the API response; watchPage
gives the fetch result of the watch page per id. -/
def recordMissing (types : List (String × ContentType))
    (watchPage : String → Option String) (videoId : String) : VideoRecord :=
  let status := checkMissingVideoStatusViaScraping (watchPage videoId)
  { id := videoId
    title := if status = "private" then "Private Video" else "Video Not Found"
    status := status
    thumbnail := none
    publishedAt := none
    contentType := (jsLookup types videoId).getD .video
    duration := none
    fromCache := false }

def recordForId (types : List (String × ContentType)) (items : List ApiItem)
    (watchPage : String → Option String) (videoId : String) : VideoRecord :=
  match apiLookup items videoId with
  | some item => recordFromApi types item videoId
  | none => recordMissing types watchPage videoId

/-! ## Batch loop -/

/-- One batch: the API call result (data.items on HTTP ok, the thrown error
message otherwise) and the map over the requested ids of the batch. -/
def processBatch (api : List String → Except String (List ApiItem))
    (types : List (String × ContentType)) (watchPage : String → Option String)
    (batch : List String) : Except String (List VideoRecord) :=
  match api batch with
  | .error e => .error e
  | .ok items => .ok (batch.map (recordForId types items watchPage))

def runBatches (api : List String → Except String (List ApiItem))
    (types : List (String × ContentType)) (watchPage : String → Option String) :
    List (List String) → Except String (List VideoRecord)
  | [] => .ok []
  | b :: bs =>
    match processBatch api types watchPage b with
    | .error e => .error e
    | .ok rs =>
      match runBatches api types watchPage bs with
      | .error e => .error e
      | .ok rest => .ok (rs ++ rest)

/-- slice-based batching: for (i = 0; i < l.length; i += n) l.slice(i, i+n). -/
def chunksAux (n : Nat) : Nat → List String → List (List String)
  | 0, _ => []
  | _, [] => []
  | fuel + 1, l => l.take n :: chunksAux n fuel (l.drop n)

def chunks (n : Nat) (l : List String) : List (List String) := chunksAux n l.length l

/-! ## Cache read and write -/

/-- The freshness filter of the cache read: the query keeps a row iff
cached_at > (now - 24h); 86400000 ms = 24 hours. -/
def freshHit (cache : Cache) (now : Int) (videoId : String) : Option CachedData :=
  match cache videoId with
  | none => none
  | some (d, t) => if t > now - 86400000 then some d else none

/-- cachedResults: every requested id with a fresh row yields
(...row.data, fromCache: true).  The select does not fix a row order; the
model enumerates hits in request order, which the final re-sort makes
irrelevant. -/
def cachedRecords (cache : Cache) (now : Int) (allIds : List String) :
    List VideoRecord :=
  allIds.filterMap (fun i => (freshHit cache now i).map (fun d => d.toRecord true))

/-- idsToFetch = allVideoIds.filter(id => !cachedIds.has(id)). -/
def toFetch (cache : Cache) (now : Int) (allIds : List String) : List String :=
  allIds.filter (fun i => (freshHit cache now i).isNone)

/-- The definitive-status filter of the cache write. -/
def definitiveB (s : String) : Bool :=
  (["public", "unlisted", "private", "deleted"] : List String).contains s

/-- cachePayload: definitive fresh results become rows, cached_at = write time. -/
def mkPayload (now : Int) (fresh : List VideoRecord) : List CacheRow :=
  (fresh.filter (fun r => definitiveB r.status)).map
    (fun r => ⟨r.id, r.toCachedData, now⟩)

def upsertRow (cache : Cache) (row : CacheRow) : Cache :=
  fun k => if k = row.video_id then some (row.data, row.cached_at) else cache k

/-- upsert with onConflict video_id: row-by-row last-write-wins replacement. -/
def upsertRows (cache : Cache) (rows : List CacheRow) : Cache :=
  rows.foldl upsertRow cache

/-! ## The request handler -/

/-- The request after channel discovery: videoIds is the videoIds field of the
body (|| []); channel is the outcome of the channel branch when channelUrl was
supplied and discovery succeeded (its id list and tab type hints). -/
structure HandlerInput where
  videoIds : List String
  channel : Option (List String × List (String × ContentType))
  ignoreCache : Bool

/-- finalVideoIds and videoTypes after the channel branch: with a channel the
union is deduplicated through a Set; without one the explicit list is used as
is, and videoTypes stays empty. -/
def finalIdsAndTypes (inp : HandlerInput) :
    List String × List (String × ContentType) :=
  match inp.channel with
  | none => (inp.videoIds, [])
  | some (chIds, chTypes) => (dedupFirst (inp.videoIds ++ chIds), chTypes)

/-- The observable outcome of one request: the HTTP response body, the list of
upsert calls issued to the cache table (each with its payload), and the cache
state afterwards. -/
structure HandlerOut where
  response : Except String (List VideoRecord)
  writes : List (List CacheRow)
  cacheAfter : Cache

def respPart (ignoreCache : Bool) (allIds : List String) (cache : Cache)
    (now : Int) (fresh : List VideoRecord) : List VideoRecord :=
  allIds.filterMap
    (mapGet ((if ignoreCache then [] else cachedRecords cache now allIds) ++ fresh))

def writesPart (ignoreCache : Bool) (now : Int) (fresh : List VideoRecord) :
    List (List CacheRow) :=
  if fresh ≠ [] ∧ ignoreCache = false ∧ mkPayload now fresh ≠ [] then
    [mkPayload now fresh]
  else []

def handlerCore (ignoreCache : Bool) (types : List (String × ContentType))
    (allIds : List String) (cache : Cache) (now : Int)
    (api : List String → Except String (List ApiItem))
    (watchPage : String → Option String) : HandlerOut :=
  match runBatches api types watchPage
      (chunks 50 (if ignoreCache then allIds else toFetch cache now allIds)) with
  | .error e => ⟨.error e, [], cache⟩
  | .ok fresh =>
    ⟨.ok (respPart ignoreCache allIds cache now fresh),
     writesPart ignoreCache now fresh,
     (writesPart ignoreCache now fresh).foldl upsertRows cache⟩

/-- The serve handler after the channel branch.  Date.now() and the write-time
toISOString() are both taken during the one request and modelled as the single
request time now.  An empty id list returns results: [] before any cache
access; a failed batch call is thrown and answered as an error with no cache
write (the read leaves no trace in the state). -/
def runHandler (inp : HandlerInput) (cache : Cache) (now : Int)
    (api : List String → Except String (List ApiItem))
    (watchPage : String → Option String) : HandlerOut :=
  if (finalIdsAndTypes inp).1 = [] then ⟨.ok [], [], cache⟩
  else
    handlerCore inp.ignoreCache (finalIdsAndTypes inp).2 (finalIdsAndTypes inp).1
      cache now api watchPage

/-! ## Channel scraping merge (scrapeChannelContent) -/

/-- Source scrapeChannelContent, with the three scrape passes supplied as
their id lists: the videos listing pass tags each id video, then the shorts
listing pass tags each id short (overwriting), then the extra channel variants
add ids with no tag; the id set keeps first-insertion order. -/
def scrapeChannelContent (videosIds shortsIds additionalIds : List String) :
    List String × List (String × ContentType) :=
  (dedupFirst (videosIds ++ shortsIds ++ additionalIds),
   videosIds.map (fun i => (i, ContentType.video)) ++
     shortsIds.map (fun i => (i, ContentType.short)))

/-! ## Aggressive pagination (scrapeWithAggressivePagination) -/

/-- The external effects of one pagination step.  step models
fetchPageWithMultipleStrategies for the page (its own strategy loop swallows
HTTP failures; an error here is a runtime rejection thrown inside the loop
body, which is what the catch branch of the while loop handles).  alt models
tryAlternativeContinuation (never throws).  refresh models the token refresh
fetch of url?flow=grid and view=0 followed by extractContinuationToken; an
error is a thrown refresh fetch, which escapes to the outer catch. -/
structure PaginationEnv where
  step : Nat → String → Except Unit (List String × Option String)
  alt : Nat → String → List String
  refresh : Nat → Except Unit (Option String)

def maxPages : Nat := 50

/-- The while loop of scrapeWithAggressivePagination.  fuel = maxPages -
pageCount encodes the page ceiling; the result pairs the accumulated id set
(insertion order) with the number of token-refresh recoveries attempted.
Every exit path, including both catch branches, returns the ids accumulated
so far. -/
def paginateLoop (env : PaginationEnv) :
    Nat → Nat → Option String → List String → List String × Nat
  | _, _, none, acc => (acc, 0)
  | 0, _, some _, acc => (acc, 0)
  | fuel + 1, pageCount, some tok, acc =>
    let pc := pageCount + 1
    match env.step pc tok with
    | .ok res =>
      let acc1 := addAll acc res.1
      if acc1.length - acc.length = 0 then
        let acc2 := addAll acc1 (env.alt pc tok)
        if acc2.length - acc1.length = 0 then (acc2, 0)
        else paginateLoop env fuel pc res.2 acc2
      else paginateLoop env fuel pc res.2 acc1
    | .error _ =>
      if pc < 3 then
        match env.refresh pc with
        | .error _ => (acc, 1)
        | .ok none => (acc, 1)
        | .ok (some t) =>
          let r := paginateLoop env fuel pc (some t) acc
          (r.1, r.2 + 1)
      else (acc, 0)

/-- scrapeWithAggressivePagination after its initial page scrape, which is
supplied as the initial id list and continuation token. -/
def scrapeWithAggressivePagination (env : PaginationEnv)
    (initialIds : List String) (initialToken : Option String) :
    List String × Nat :=
  paginateLoop env maxPages 0 initialToken (addAll [] initialIds)

/-! ## Helper lemmas -/

theorem recordForId_id (types : List (String × ContentType)) (items : List ApiItem)
    (watchPage : String → Option String) (videoId : String) :
    (recordForId types items watchPage videoId).id = videoId := by
  unfold recordForId
  cases apiLookup items videoId <;> rfl

theorem processBatch_ok_ids (api : List String → Except String (List ApiItem))
    (types : List (String × ContentType)) (w : String → Option String)
    (b : List String) (rs : List VideoRecord)
    (h : processBatch api types w b = .ok rs) : rs.map (fun r => r.id) = b := by
  unfold processBatch at h
  cases ha : api b with
  | error e => rw [ha] at h; cases h
  | ok items =>
    rw [ha] at h
    injection h with h
    subst h
    rw [List.map_map]
    have hc : ∀ a ∈ b, ((fun r => VideoRecord.id r) ∘ recordForId types items w) a = id a :=
      fun a _ => recordForId_id types items w a
    rw [List.map_congr_left hc, List.map_id]

theorem runBatches_ok_ids (api : List String → Except String (List ApiItem))
    (types : List (String × ContentType)) (w : String → Option String) :
    ∀ (bs : List (List String)) (rs : List VideoRecord),
      runBatches api types w bs = .ok rs → rs.map (fun r => r.id) = bs.flatten := by
  intro bs
  induction bs with
  | nil =>
    intro rs h
    unfold runBatches at h
    injection h with h
    subst h
    rfl
  | cons b bs ih =>
    intro rs h
    unfold runBatches at h
    cases hp : processBatch api types w b with
    | error e => rw [hp] at h; cases h
    | ok rs1 =>
      rw [hp] at h
      cases hr : runBatches api types w bs with
      | error e => rw [hr] at h; cases h
      | ok rest =>
        rw [hr] at h
        injection h with h
        subst h
        rw [List.flatten_cons, List.map_append, processBatch_ok_ids _ _ _ _ _ hp, ih _ hr]

theorem chunksAux_flatten (n : Nat) (hn : 0 < n) :
    ∀ (fuel : Nat) (l : List String), l.length ≤ fuel →
      (chunksAux n fuel l).flatten = l := by
  intro fuel
  induction fuel with
  | zero =>
    intro l hl
    have : l = [] := List.eq_nil_of_length_eq_zero (Nat.le_zero.mp hl)
    subst this
    rfl
  | succ fuel ih =>
    intro l hl
    cases l with
    | nil => rfl
    | cons x xs =>
      have hlen : ((x :: xs).drop n).length ≤ fuel := by
        rw [List.length_drop]
        have : (x :: xs).length - n ≤ (x :: xs).length - 1 := by
          exact Nat.sub_le_sub_left hn _
        have h2 : (x :: xs).length - 1 ≤ fuel := by
          simp [List.length_cons] at hl ⊢
          omega
        omega
      show (x :: xs).take n ++ (chunksAux n fuel ((x :: xs).drop n)).flatten = x :: xs
      rw [ih _ hlen, List.take_append_drop]

theorem chunks_flatten (n : Nat) (hn : 0 < n) (l : List String) :
    (chunks n l).flatten = l :=
  chunksAux_flatten n hn l.length l (Nat.le_refl _)

theorem mapGet_id : ∀ (rs : List VideoRecord) (k : String) (r : VideoRecord),
    mapGet rs k = some r → r.id = k := by
  intro rs
  induction rs with
  | nil => intro k r h; cases h
  | cons x rest ih =>
    intro k r h
    unfold mapGet at h
    cases hm : mapGet rest k with
    | some v => rw [hm] at h; injection h with h; subst h; exact ih _ _ hm
    | none =>
      rw [hm] at h
      by_cases hx : x.id = k
      · rw [if_pos hx] at h; injection h with h; subst h; exact hx
      · rw [if_neg hx] at h; cases h

theorem mapGet_mem : ∀ (rs : List VideoRecord) (k : String) (r : VideoRecord),
    mapGet rs k = some r → r ∈ rs := by
  intro rs
  induction rs with
  | nil => intro k r h; cases h
  | cons x rest ih =>
    intro k r h
    unfold mapGet at h
    cases hm : mapGet rest k with
    | some v =>
      rw [hm] at h; injection h with h; subst h
      exact List.mem_cons_of_mem _ (ih _ _ hm)
    | none =>
      rw [hm] at h
      by_cases hx : x.id = k
      · rw [if_pos hx] at h; injection h with h; subst h; exact List.mem_cons_self _ _
      · rw [if_neg hx] at h; cases h

theorem mapGet_eq_none : ∀ (rs : List VideoRecord) (k : String),
    k ∉ rs.map (fun r => r.id) → mapGet rs k = none := by
  intro rs
  induction rs with
  | nil => intro k _; rfl
  | cons x rest ih =>
    intro k hk
    rw [List.map_cons, List.mem_cons] at hk
    push_neg at hk
    unfold mapGet
    rw [ih k hk.2, if_neg (fun he => hk.1 he.symm)]

theorem mapGet_isSome : ∀ (rs : List VideoRecord) (k : String),
    k ∈ rs.map (fun r => r.id) → (mapGet rs k).isSome = true := by
  intro rs
  induction rs with
  | nil => intro k h; cases h
  | cons x rest ih =>
    intro k hk
    unfold mapGet
    cases hm : mapGet rest k with
    | some v => rfl
    | none =>
      rw [List.map_cons, List.mem_cons] at hk
      cases hk with
      | inl h => rw [if_pos h.symm]; rfl
      | inr h =>
        have := ih k h
        rw [hm] at this
        cases this

theorem filterMapCongrMem {α β : Type} : ∀ (l : List α) (f g : α → Option β),
    (∀ a ∈ l, f a = g a) → l.filterMap f = l.filterMap g := by
  intro l
  induction l with
  | nil => intro f g _; rfl
  | cons a l ih =>
    intro f g h
    rw [List.filterMap_cons, List.filterMap_cons, h a (List.mem_cons_self a l),
      ih f g (fun x hx => h x (List.mem_cons_of_mem a hx))]

theorem filterMapEqMapMem {α β : Type} : ∀ (l : List α) (f : α → Option β) (g : α → β),
    (∀ a ∈ l, f a = some (g a)) → l.filterMap f = l.map g := by
  intro l
  induction l with
  | nil => intro f g _; rfl
  | cons a l ih =>
    intro f g h
    rw [List.filterMap_cons, h a (List.mem_cons_self a l), List.map_cons,
      ih f g (fun x hx => h x (List.mem_cons_of_mem a hx))]

theorem mapGet_cons (r : VideoRecord) (rest : List VideoRecord) (k : String) :
    mapGet (r :: rest) k =
      match mapGet rest k with
      | some v => some v
      | none => if r.id = k then some r else none := rfl

theorem filterMap_mapGet_self : ∀ (rs : List VideoRecord),
    (rs.map (fun r => r.id)).Nodup →
    (rs.map (fun r => r.id)).filterMap (mapGet rs) = rs := by
  intro rs
  induction rs with
  | nil => intro _; rfl
  | cons r rest ih =>
    intro hnd
    rw [List.map_cons, List.nodup_cons] at hnd
    have hnotin : r.id ∉ rest.map (fun x => x.id) := hnd.1
    have h1 : mapGet (r :: rest) r.id = some r := by
      rw [mapGet_cons, mapGet_eq_none rest r.id hnotin]
      exact if_pos rfl
    have h2 : ∀ k ∈ rest.map (fun x => x.id), mapGet (r :: rest) k = mapGet rest k := by
      intro k hk
      rw [mapGet_cons]
      cases hm : mapGet rest k with
      | some v => rfl
      | none =>
        have := mapGet_isSome rest k hk
        rw [hm] at this
        cases this
    rw [List.map_cons, List.filterMap_cons, h1,
      filterMapCongrMem _ _ _ h2, ih hnd.2]

theorem upsertRows_cons (c : Cache) (row : CacheRow) (rest : List CacheRow) :
    upsertRows c (row :: rest) = upsertRows (upsertRow c row) rest := rfl

theorem upsertRows_notMem : ∀ (rows : List CacheRow) (c : Cache) (k : String),
    k ∉ rows.map (fun row => row.video_id) → upsertRows c rows k = c k := by
  intro rows
  induction rows with
  | nil => intro c k _; rfl
  | cons row rest ih =>
    intro c k hk
    rw [List.map_cons, List.mem_cons] at hk
    push_neg at hk
    rw [upsertRows_cons, ih _ _ hk.2]
    unfold upsertRow
    rw [if_neg hk.1]

theorem upsertRows_mem : ∀ (rows : List CacheRow) (c : Cache) (row : CacheRow),
    (rows.map (fun x => x.video_id)).Nodup → row ∈ rows →
    upsertRows c rows row.video_id = some (row.data, row.cached_at) := by
  intro rows
  induction rows with
  | nil => intro c row _ h; cases h
  | cons x rest ih =>
    intro c row hnd hm
    rw [List.map_cons, List.nodup_cons] at hnd
    rw [List.mem_cons] at hm
    cases hm with
    | inl h =>
      subst h
      rw [upsertRows_cons, upsertRows_notMem rest _ _ hnd.1]
      unfold upsertRow
      rw [if_pos rfl]
    | inr h =>
      rw [upsertRows_cons]
      exact ih _ _ hnd.2 h

theorem mem_dedupFirstAux : ∀ (l seen : List String) (x : String),
    x ∈ dedupFirstAux seen l ↔ x ∈ l ∧ x ∉ seen := by
  intro l
  induction l with
  | nil => intro seen x; simp [dedupFirstAux]
  | cons y ys ih =>
    intro seen x
    unfold dedupFirstAux
    by_cases hy : y ∈ seen
    · rw [if_pos hy, ih]
      constructor
      · exact fun h => ⟨List.mem_cons_of_mem _ h.1, h.2⟩
      · rintro ⟨h1, h2⟩
        rw [List.mem_cons] at h1
        cases h1 with
        | inl h => exact absurd (h ▸ hy) h2
        | inr h => exact ⟨h, h2⟩
    · rw [if_neg hy, List.mem_cons, ih]
      constructor
      · rintro (h | ⟨h1, h2⟩)
        · subst h; exact ⟨List.mem_cons_self _ _, hy⟩
        · exact ⟨List.mem_cons_of_mem _ h1, fun hs => h2 (List.mem_cons_of_mem _ hs)⟩
      · rintro ⟨h1, h2⟩
        rw [List.mem_cons] at h1
        cases h1 with
        | inl h => exact Or.inl h
        | inr h =>
          by_cases hx : x = y
          · exact Or.inl hx
          · refine Or.inr ⟨h, fun hs => ?_⟩
            rw [List.mem_cons] at hs
            cases hs with
            | inl h => exact hx h
            | inr h => exact h2 h

theorem nodup_dedupFirstAux : ∀ (l seen : List String),
    (dedupFirstAux seen l).Nodup := by
  intro l
  induction l with
  | nil => intro seen; exact List.nodup_nil
  | cons y ys ih =>
    intro seen
    unfold dedupFirstAux
    by_cases hy : y ∈ seen
    · rw [if_pos hy]; exact ih seen
    · rw [if_neg hy, List.nodup_cons]
      refine ⟨fun hm => ?_, ih _⟩
      have := (mem_dedupFirstAux ys (y :: seen) y).mp hm
      exact this.2 (List.mem_cons_self _ _)

theorem mem_dedupFirst (l : List String) (x : String) :
    x ∈ dedupFirst l ↔ x ∈ l := by
  unfold dedupFirst
  rw [mem_dedupFirstAux]
  simp

theorem nodup_dedupFirst (l : List String) : (dedupFirst l).Nodup :=
  nodup_dedupFirstAux l []

theorem jsLookup_cons (p : String × ContentType) (rest : List (String × ContentType))
    (k : String) :
    jsLookup (p :: rest) k =
      match jsLookup rest k with
      | some v => some v
      | none => if p.1 = k then some p.2 else none := rfl

theorem jsLookup_append (l1 l2 : List (String × ContentType)) (k : String) :
    jsLookup (l1 ++ l2) k =
      match jsLookup l2 k with
      | some v => some v
      | none => jsLookup l1 k := by
  induction l1 with
  | nil =>
    rw [List.nil_append]
    cases jsLookup l2 k <;> rfl
  | cons p rest ih =>
    rw [List.cons_append, jsLookup_cons, ih, jsLookup_cons]
    cases jsLookup l2 k with
    | some v => rfl
    | none => rfl

theorem jsLookup_const : ∀ (s : List String) (c : ContentType) (x : String),
    jsLookup (s.map (fun i => (i, c))) x = if x ∈ s then some c else none := by
  intro s
  induction s with
  | nil => intro c x; simp [jsLookup]
  | cons y ys ih =>
    intro c x
    rw [List.map_cons]
    unfold jsLookup
    rw [ih]
    by_cases hx : x ∈ ys
    · rw [if_pos hx, if_pos (List.mem_cons_of_mem _ hx)]
    · rw [if_neg hx]
      by_cases hxy : x = y
      · subst hxy
        rw [if_pos rfl, if_pos (List.mem_cons_self _ _)]
      · rw [if_neg (fun h => hxy h.symm), if_neg (fun h => ?_)]
        rw [List.mem_cons] at h
        cases h with
        | inl h => exact hxy h
        | inr h => exact hx h

theorem toCachedData_toRecord (r : VideoRecord) (b : Bool) :
    (r.toCachedData).toRecord b =
      { r with fromCache := b } := rfl

theorem recordForId_fromCache (types : List (String × ContentType))
    (items : List ApiItem) (w : String → Option String) (i : String) :
    (recordForId types items w i).fromCache = false := by
  unfold recordForId
  cases apiLookup items i <;> rfl

theorem runBatches_fromCache (api : List String → Except String (List ApiItem))
    (types : List (String × ContentType)) (w : String → Option String) :
    ∀ (bs : List (List String)) (rs : List VideoRecord),
      runBatches api types w bs = .ok rs → ∀ r ∈ rs, r.fromCache = false := by
  intro bs
  induction bs with
  | nil =>
    intro rs h
    unfold runBatches at h
    injection h with h
    subst h
    intro r hr
    cases hr
  | cons b bs ih =>
    intro rs h
    unfold runBatches at h
    cases hp : processBatch api types w b with
    | error e => rw [hp] at h; cases h
    | ok rs1 =>
      rw [hp] at h
      cases hr : runBatches api types w bs with
      | error e => rw [hr] at h; cases h
      | ok rest =>
        rw [hr] at h
        injection h with h
        subst h
        intro r hmem
        rw [List.mem_append] at hmem
        cases hmem with
        | inl hm =>
          unfold processBatch at hp
          cases ha : api b with
          | error e => rw [ha] at hp; cases hp
          | ok items =>
            rw [ha] at hp
            injection hp with hp
            subst hp
            rw [List.mem_map] at hm
            obtain ⟨a, -, ha2⟩ := hm
            rw [← ha2]
            exact recordForId_fromCache types items w a
        | inr hm => exact ih _ hr r hm

theorem writesPart_true (now : Int) (fresh : List VideoRecord) :
    writesPart true now fresh = [] := by
  unfold writesPart
  rw [if_neg]
  rintro ⟨-, h, -⟩
  cases h

theorem cachedRecords_of_noFresh (cache : Cache) (now : Int) (allIds : List String)
    (h : ∀ i ∈ allIds, freshHit cache now i = none) :
    cachedRecords cache now allIds = [] := by
  unfold cachedRecords
  rw [List.filterMap_eq_nil_iff]
  intro i hi
  rw [h i hi]
  rfl

theorem toFetch_of_noFresh (cache : Cache) (now : Int) (allIds : List String)
    (h : ∀ i ∈ allIds, freshHit cache now i = none) :
    toFetch cache now allIds = allIds := by
  unfold toFetch
  rw [List.filter_eq_self]
  intro i hi
  rw [h i hi]
  rfl

/-- C10 helper: membership in the final re-sorted output implies membership in
the merged record pool. -/
theorem mem_of_mem_respPart (ic : Bool) (allIds : List String) (cache : Cache)
    (now : Int) (fresh : List VideoRecord) (r : VideoRecord)
    (h : r ∈ respPart ic allIds cache now fresh) :
    r ∈ (if ic then ([] : List VideoRecord) else cachedRecords cache now allIds) ++ fresh := by
  unfold respPart at h
  rw [List.mem_filterMap] at h
  obtain ⟨i, -, hget⟩ := h
  exact mapGet_mem _ _ _ hget

theorem respPart_true (allIds : List String) (cache : Cache) (now : Int)
    (fresh : List VideoRecord) :
    respPart true allIds cache now fresh = allIds.filterMap (mapGet fresh) := by
  unfold respPart
  rw [if_pos rfl, List.nil_append]

/-- With ignoreCache = true the handler reduces to a cache-free computation
returning the cache untouched. -/
theorem runHandler_true_eq (inp : HandlerInput) (cache : Cache) (now : Int)
    (api : List String → Except String (List ApiItem)) (w : String → Option String)
    (hic : inp.ignoreCache = true) :
    runHandler inp cache now api w =
      if (finalIdsAndTypes inp).1 = [] then ⟨.ok [], [], cache⟩
      else
        match runBatches api (finalIdsAndTypes inp).2 w
            (chunks 50 (finalIdsAndTypes inp).1) with
        | .error e => ⟨.error e, [], cache⟩
        | .ok fresh =>
          ⟨.ok ((finalIdsAndTypes inp).1.filterMap (mapGet fresh)), [], cache⟩ := by
  unfold runHandler handlerCore
  by_cases hA : (finalIdsAndTypes inp).1 = []
  · simp only [if_pos hA]
  · simp only [if_neg hA, hic, eq_self_iff_true, if_true, writesPart_true,
      respPart_true]
    cases hB : runBatches api (finalIdsAndTypes inp).2 w
        (chunks 50 (finalIdsAndTypes inp).1) with
    | error e => rfl
    | ok fresh => rfl

/-- C10.  With ignoreCache = true the request leaves the cache alone in both
directions: no upsert call is made and the cache state is returned unchanged;
the response is independent of the cache contents (the read is skipped); and
every record of a successful response has fromCache = false. -/
theorem c10_ignore_cache_frame (inp : HandlerInput) (cache cache2 : Cache)
    (now : Int) (api : List String → Except String (List ApiItem))
    (w : String → Option String) (hic : inp.ignoreCache = true) :
    (runHandler inp cache now api w).writes = [] ∧
    (runHandler inp cache now api w).cacheAfter = cache ∧
    (runHandler inp cache now api w).response = (runHandler inp cache2 now api w).response ∧
    (∀ results, (runHandler inp cache now api w).response = .ok results →
      ∀ r ∈ results, r.fromCache = false) := by
  rw [runHandler_true_eq inp cache now api w hic,
    runHandler_true_eq inp cache2 now api w hic]
  by_cases hA : (finalIdsAndTypes inp).1 = []
  · simp only [if_pos hA]
    refine ⟨trivial, trivial, trivial, ?_⟩
    intro results h r hr
    injection h with h
    subst h
    cases hr
  · simp only [if_neg hA]
    cases hB : runBatches api (finalIdsAndTypes inp).2 w
        (chunks 50 (finalIdsAndTypes inp).1) with
    | error e =>
      refine ⟨rfl, rfl, rfl, ?_⟩
      intro results h r hr
      exact Except.noConfusion h
    | ok fresh =>
      refine ⟨rfl, rfl, rfl, ?_⟩
      intro results h r hr
      injection h with h
      subst h
      rw [List.mem_filterMap] at hr
      obtain ⟨i, -, hget⟩ := hr
      exact runBatches_fromCache api _ w _ fresh hB r (mapGet_mem _ _ _ hget)

/-- C10 witness. -/
theorem c10_ignore_cache_frame_witness :
    (runHandler ⟨["wA", "wB"], none, true⟩ (fun _ => none) 5
        (fun batch => .ok (batch.map (fun i => ⟨i, some "T", some "public", none, none, some "PT10S"⟩)))
        (fun _ => none)).writes = [] ∧
    (runHandler ⟨["wA", "wB"], none, true⟩ (fun _ => none) 5
        (fun batch => .ok (batch.map (fun i => ⟨i, some "T", some "public", none, none, some "PT10S"⟩)))
        (fun _ => none)).cacheAfter = (fun _ => none) :=
  ⟨(c10_ignore_cache_frame ⟨["wA", "wB"], none, true⟩ (fun _ => none) (fun _ => none) 5
      (fun batch => .ok (batch.map (fun i => ⟨i, some "T", some "public", none, none, some "PT10S"⟩)))
      (fun _ => none) rfl).1,
   (c10_ignore_cache_frame ⟨["wA", "wB"], none, true⟩ (fun _ => none) (fun _ => none) 5
      (fun batch => .ok (batch.map (fun i => ⟨i, some "T", some "public", none, none, some "PT10S"⟩)))
      (fun _ => none) rfl).2.1⟩

/-- A well-formed cache stores under each key data whose id field is that key;
the writer only ever produces such rows. -/
def CacheWF (cache : Cache) : Prop :=
  ∀ k p, cache k = some p → p.1.id = k

/-- C6.  A requested id holding a cache row is served from the cache iff its
cached_at is strictly newer than 24 hours (86400000 ms) before the request
time; at exactly 24 hours the row is treated as absent and the id goes to the
fetch list.  cachedRecords and toFetch are exactly the read step the handler
runs when ignoreCache is false. -/
theorem freshHit_eq (cache : Cache) (now : Int) (i : String) (d : CachedData)
    (t : Int) (h : cache i = some (d, t)) :
    freshHit cache now i = if t > now - 86400000 then some d else none := by
  unfold freshHit
  rw [h]

/-- Under a well-formed cache, a fresh hit at key j carries data whose id is j. -/
theorem freshHit_id (cache : Cache) (now : Int) (j : String) (dj : CachedData)
    (hwf : CacheWF cache) (h : freshHit cache now j = some dj) : dj.id = j := by
  cases hcj : cache j with
  | none =>
    unfold freshHit at h
    rw [hcj] at h
    cases h
  | some p =>
    obtain ⟨d1, t1⟩ := p
    rw [freshHit_eq cache now j d1 t1 hcj] at h
    by_cases hfr : t1 > now - 86400000
    · rw [if_pos hfr] at h
      injection h with h
      rw [← h]
      exact hwf j (d1, t1) hcj
    · rw [if_neg hfr] at h
      cases h

theorem c6_cache_ttl_boundary (cache : Cache) (now : Int) (allIds : List String)
    (i : String) (d : CachedData) (t : Int) (hwf : CacheWF cache)
    (hmem : i ∈ allIds) (hc : cache i = some (d, t)) :
    (i ∈ (cachedRecords cache now allIds).map (fun r => r.id) ↔ t > now - 86400000) ∧
    (i ∈ toFetch cache now allIds ↔ ¬ t > now - 86400000) := by
  have hhit := freshHit_eq cache now i d t hc
  constructor
  · constructor
    · intro h
      rw [List.mem_map] at h
      obtain ⟨r, hr, hid⟩ := h
      unfold cachedRecords at hr
      rw [List.mem_filterMap] at hr
      obtain ⟨j, hj, hget⟩ := hr
      cases hfj : freshHit cache now j with
      | none => rw [hfj] at hget; cases hget
      | some dj =>
        rw [hfj] at hget
        injection hget with hget
        have hjd : dj.id = j := freshHit_id cache now j dj hwf hfj
        have hji : j = i := by
          rw [← hjd, ← hid, ← hget]
          rfl
        subst hji
        rw [hhit] at hfj
        by_cases hfr : t > now - 86400000
        · exact hfr
        · rw [if_neg hfr] at hfj
          cases hfj
    · intro h
      rw [List.mem_map]
      refine ⟨d.toRecord true, ?_, hwf i (d, t) hc⟩
      unfold cachedRecords
      rw [List.mem_filterMap]
      refine ⟨i, hmem, ?_⟩
      rw [hhit, if_pos h]
      rfl
  · unfold toFetch
    rw [List.mem_filter]
    constructor
    · rintro ⟨-, hn⟩ hfr
      rw [hhit, if_pos hfr] at hn
      cases hn
    · intro h
      refine ⟨hmem, ?_⟩
      rw [hhit, if_neg h]
      rfl

/-- C6 witness: an entry cached exactly 24 hours before the request time is
not served from the cache and its id is re-fetched. -/
theorem c6_cache_ttl_boundary_witness :
    (("w24" : String) ∈ (cachedRecords
        (fun k => if k = "w24" then some (⟨"w24", "T", "public", none, none, .video, some "PT9S"⟩, 86400000) else none)
        172800000 ["w24"]).map (fun r => r.id) ↔
      (86400000 : Int) > 172800000 - 86400000) ∧
    (("w24" : String) ∈ toFetch
        (fun k => if k = "w24" then some (⟨"w24", "T", "public", none, none, .video, some "PT9S"⟩, 86400000) else none)
        172800000 ["w24"] ↔
      ¬ (86400000 : Int) > 172800000 - 86400000) :=
  c6_cache_ttl_boundary
    (fun k => if k = "w24" then some (⟨"w24", "T", "public", none, none, .video, some "PT9S"⟩, 86400000) else none)
    172800000 ["w24"] "w24"
    ⟨"w24", "T", "public", none, none, .video, some "PT9S"⟩ 86400000
    (by
      intro k p h
      dsimp only at h
      by_cases hk : k = "w24"
      · subst hk
        rw [if_pos rfl] at h
        injection h with h
        rw [← h]
      · rw [if_neg hk] at h
        cases h)
    (List.mem_cons_self _ _)
    (by dsimp only; rw [if_pos rfl])

/-! ## C9: duration classification boundary -/

/-- C9.  For a video present in the batch response whose discovery hint is
absent and whose duration string is nonempty, the content type is short
exactly when the parsed duration is at most 61 seconds. -/
theorem c9_short_boundary (types : List (String × ContentType)) (items : List ApiItem)
    (pages : String → Option String) (i : String) (item : ApiItem)
    (hp : apiLookup items i = some item)
    (hhint : jsLookup types i = none)
    (hd : jsOrStr item.duration "" ≠ "") :
    (recordForId types items pages i).contentType =
      if parseDuration (jsOrStr item.duration "") ≤ 61 then ContentType.short
      else ContentType.video := by
  have hrec : recordForId types items pages i = recordFromApi types item i := by
    unfold recordForId
    rw [hp]
  rw [hrec]
  show (match jsLookup types i with
        | some t => t
        | none =>
          if jsOrStr item.duration "" ≠ "" ∧ parseDuration (jsOrStr item.duration "") ≤ 61
          then ContentType.short else ContentType.video) = _
  rw [hhint]
  by_cases hle : parseDuration (jsOrStr item.duration "") ≤ 61
  · rw [if_pos ⟨hd, hle⟩, if_pos hle]
  · rw [if_neg (fun hcon => hle hcon.2), if_neg hle]

/-- C9 witness: 61 seconds classifies as short, 62 seconds as video. -/
theorem c9_short_boundary_witness :
    (recordForId [] [⟨"s61", some "T", some "public", none, none, some "PT1M1S"⟩]
        (fun _ => none) "s61").contentType = ContentType.short ∧
    (recordForId [] [⟨"s62", some "T", some "public", none, none, some "PT1M2S"⟩]
        (fun _ => none) "s62").contentType = ContentType.video :=
  ⟨Eq.trans
    (c9_short_boundary [] [⟨"s61", some "T", some "public", none, none, some "PT1M1S"⟩]
      (fun _ => none) "s61" ⟨"s61", some "T", some "public", none, none, some "PT1M1S"⟩
      (by decide) rfl (by decide))
    (by decide),
   Eq.trans
    (c9_short_boundary [] [⟨"s62", some "T", some "public", none, none, some "PT1M2S"⟩]
      (fun _ => none) "s62" ⟨"s62", some "T", some "public", none, none, some "PT1M2S"⟩
      (by decide) rfl (by decide))
    (by decide)⟩

/-! ## C7: classification of IDs absent from the batch response -/

/-- The unavailability-keyword branch never changes the outcome: the
classifier is private exactly on a page whose lowercased body contains the
substring private, and deleted in every other case, including a failed fetch. -/
theorem checkMissing_eq (page : Option String) :
    checkMissingVideoStatusViaScraping page =
      match page with
      | none => "deleted"
      | some html => if strIncludes html.toLower "private" then "private" else "deleted" := by
  cases page with
  | none => rfl
  | some html =>
    show (if strIncludes html.toLower "private" then "private"
          else if deletedKeywords.any (fun kw => strIncludes html.toLower kw) then "deleted"
          else "deleted") =
      (if strIncludes html.toLower "private" then "private" else "deleted")
    by_cases hp : strIncludes html.toLower "private" = true
    · rw [if_pos hp, if_pos hp]
    · rw [if_neg hp, if_neg hp]
      by_cases hk : deletedKeywords.any (fun kw => strIncludes html.toLower kw) = true
      · rw [if_pos hk]
      · rw [if_neg hk]

/-- C7.  Every requested id absent from the batch response goes through the
scraping classifier: the record status is private iff the fetched watch page
body contains the substring private case-insensitively, and deleted otherwise
(keyword match, no match, or failed fetch alike); the title is the matching
synthetic one and thumbnail, publishedAt and duration are all empty. -/
theorem c7_missing_branch (types : List (String × ContentType)) (items : List ApiItem)
    (pages : String → Option String) (i : String)
    (habs : apiLookup items i = none) :
    (recordForId types items pages i).status =
      (match pages i with
       | none => "deleted"
       | some html => if strIncludes html.toLower "private" then "private" else "deleted") ∧
    (recordForId types items pages i).title =
      (if (recordForId types items pages i).status = "private" then "Private Video"
       else "Video Not Found") ∧
    (recordForId types items pages i).thumbnail = none ∧
    (recordForId types items pages i).publishedAt = none ∧
    (recordForId types items pages i).duration = none := by
  have hrec : recordForId types items pages i = recordMissing types pages i := by
    unfold recordForId
    rw [habs]
  rw [hrec]
  refine ⟨?_, rfl, rfl, rfl, rfl⟩
  show checkMissingVideoStatusViaScraping (pages i) = _
  exact checkMissing_eq (pages i)

/-- C7 witness: a watch page shouting PRIVATE yields a private record with the
synthetic title and empty metadata. -/
theorem c7_missing_branch_witness :
    (recordForId [] [] (fun _ => some "This video is PRIVATE") "m1").status =
      (match (fun (_ : String) => some "This video is PRIVATE") "m1" with
       | none => "deleted"
       | some html => if strIncludes html.toLower "private" then "private" else "deleted") ∧
    (recordForId [] [] (fun _ => some "This video is PRIVATE") "m1").title =
      (if (recordForId [] [] (fun _ => some "This video is PRIVATE") "m1").status = "private"
       then "Private Video" else "Video Not Found") ∧
    (recordForId [] [] (fun _ => some "This video is PRIVATE") "m1").thumbnail = none ∧
    (recordForId [] [] (fun _ => some "This video is PRIVATE") "m1").publishedAt = none ∧
    (recordForId [] [] (fun _ => some "This video is PRIVATE") "m1").duration = none :=
  c7_missing_branch [] [] (fun _ => some "This video is PRIVATE") "m1" rfl

/-! ## C2: status of records built from present batch entries -/

/-- C2 counterexample: a present batch entry with no privacyStatus field
yields the sentinel status unknown, which is outside the record status set
and not a verbatim copy of any response value. -/
theorem c2_counterexample :
    (recordForId [] [⟨"cB", some "T", none, none, none, some "PT5S"⟩]
        (fun _ => none) "cB").status = "unknown" ∧
    ¬ ((recordForId [] [⟨"cB", some "T", none, none, none, some "PT5S"⟩]
        (fun _ => none) "cB").status ∈
      (["public", "unlisted", "private", "deleted", "checking"] : List String)) := by
  decide

/-- C2 amended.  When a present batch entry carries a nonempty privacyStatus,
the record status copies it verbatim; under the API contract that the value is
one of public, unlisted or private, the status therefore stays inside the
record status set.  An entry missing privacyStatus instead yields unknown. -/
theorem c2_amended_status_verbatim (types : List (String × ContentType))
    (items : List ApiItem) (pages : String → Option String) (i : String)
    (item : ApiItem) (s : String)
    (hp : apiLookup items i = some item)
    (hs : item.privacyStatus = some s) (hne : s ≠ "") :
    (recordForId types items pages i).status = s ∧
    (s ∈ (["public", "unlisted", "private"] : List String) →
      (recordForId types items pages i).status ∈
        (["public", "unlisted", "private", "deleted", "checking"] : List String)) := by
  have hrec : recordForId types items pages i = recordFromApi types item i := by
    unfold recordForId
    rw [hp]
  have hst : (recordForId types items pages i).status = s := by
    rw [hrec]
    show jsOrStr item.privacyStatus "unknown" = s
    rw [hs]
    show (if s = "" then "unknown" else s) = s
    rw [if_neg hne]
  refine ⟨hst, fun hmem => ?_⟩
  rw [hst]
  simp only [List.mem_cons, List.not_mem_nil, or_false] at hmem ⊢
  rcases hmem with h | h | h
  · exact Or.inl h
  · exact Or.inr (Or.inl h)
  · exact Or.inr (Or.inr (Or.inl h))

/-- C2 amended witness. -/
theorem c2_amended_status_verbatim_witness :
    (recordForId [] [⟨"cP", some "T", some "public", none, none, some "PT5S"⟩]
        (fun _ => none) "cP").status = "public" ∧
    (recordForId [] [⟨"cP", some "T", some "public", none, none, some "PT5S"⟩]
        (fun _ => none) "cP").status ∈
      (["public", "unlisted", "private", "deleted", "checking"] : List String) :=
  ⟨(c2_amended_status_verbatim [] [⟨"cP", some "T", some "public", none, none, some "PT5S"⟩]
      (fun _ => none) "cP" ⟨"cP", some "T", some "public", none, none, some "PT5S"⟩
      "public" (by decide) rfl (by decide)).1,
   (c2_amended_status_verbatim [] [⟨"cP", some "T", some "public", none, none, some "PT5S"⟩]
      (fun _ => none) "cP" ⟨"cP", some "T", some "public", none, none, some "PT5S"⟩
      "public" (by decide) rfl (by decide)).2 (by decide)⟩

/-! ## C1: discovery deduplication and hint merging -/

/-- C1 counterexample: an id found in both the videos and the shorts listings
appears once, but its hint comes from the shorts listing (processed second),
not from the videos listing (processed first). -/
theorem c1_counterexample :
    (scrapeChannelContent ["dupX"] ["dupX"] []).1 = ["dupX"] ∧
    jsLookup (scrapeChannelContent ["dupX"] ["dupX"] []).2 "dupX" = some ContentType.short ∧
    jsLookup (scrapeChannelContent ["dupX"] ["dupX"] []).2 "dupX" ≠ some ContentType.video := by
  decide

/-- C1 amended.  An id discovered in both listings appears exactly once in the
result, and its hint is the one of the listing processed last, the shorts
listing, whose assignment overwrites the earlier videos hint. -/
theorem c1_amended_last_hint_wins (v s a : List String) (x : String)
    (hv : x ∈ v) (hs : x ∈ s) :
    List.count x (scrapeChannelContent v s a).1 = 1 ∧
    jsLookup (scrapeChannelContent v s a).2 x = some ContentType.short := by
  constructor
  · have hn : (scrapeChannelContent v s a).1.Nodup := nodup_dedupFirst _
    have hm : x ∈ (scrapeChannelContent v s a).1 := by
      show x ∈ dedupFirst (v ++ s ++ a)
      rw [mem_dedupFirst]
      exact List.mem_append_left _ (List.mem_append_left _ hv)
    exact List.count_eq_one_of_mem hn hm
  · show jsLookup (v.map (fun i => (i, ContentType.video)) ++
        s.map (fun i => (i, ContentType.short))) x = _
    rw [jsLookup_append, jsLookup_const, if_pos hs]

/-- C1 amended witness. -/
theorem c1_amended_last_hint_wins_witness :
    List.count "kX" (scrapeChannelContent ["kX", "kY"] ["kX"] ["kZ"]).1 = 1 ∧
    jsLookup (scrapeChannelContent ["kX", "kY"] ["kX"] ["kZ"]).2 "kX" =
      some ContentType.short :=
  c1_amended_last_hint_wins ["kX", "kY"] ["kX"] ["kZ"] "kX" (by decide) (by decide)

/-! ## C8: pagination error recovery -/

theorem addAll_cons (acc : List String) (y : String) (ys : List String) :
    addAll acc (y :: ys) = addAll (if y ∈ acc then acc else acc ++ [y]) ys := rfl

theorem mem_addAll_left : ∀ (l acc : List String) (x : String),
    x ∈ acc → x ∈ addAll acc l := by
  intro l
  induction l with
  | nil => intro acc x hx; exact hx
  | cons y ys ih =>
    intro acc x hx
    rw [addAll_cons]
    apply ih
    by_cases hy : y ∈ acc
    · rw [if_pos hy]; exact hx
    · rw [if_neg hy]; exact List.mem_append_left _ hx

theorem mem_addAll_right : ∀ (l acc : List String) (x : String),
    x ∈ l → x ∈ addAll acc l := by
  intro l
  induction l with
  | nil => intro acc x hx; cases hx
  | cons y ys ih =>
    intro acc x hx
    rw [addAll_cons]
    rw [List.mem_cons] at hx
    cases hx with
    | inl h =>
      subst h
      apply mem_addAll_left
      by_cases hy : x ∈ acc
      · rw [if_pos hy]; exact hy
      · rw [if_neg hy]
        exact List.mem_append_right _ (List.mem_cons_self x [])
    | inr h => exact ih _ _ h

theorem paginateLoop_succ_some (env : PaginationEnv) (fuel pageCount : Nat)
    (tok : String) (acc : List String) :
    paginateLoop env (fuel + 1) pageCount (some tok) acc =
      match env.step (pageCount + 1) tok with
      | .ok res =>
        if (addAll acc res.1).length - acc.length = 0 then
          if (addAll (addAll acc res.1) (env.alt (pageCount + 1) tok)).length -
              (addAll acc res.1).length = 0 then
            (addAll (addAll acc res.1) (env.alt (pageCount + 1) tok), 0)
          else paginateLoop env fuel (pageCount + 1) res.2
            (addAll (addAll acc res.1) (env.alt (pageCount + 1) tok))
        else paginateLoop env fuel (pageCount + 1) res.2 (addAll acc res.1)
      | .error _ =>
        if pageCount + 1 < 3 then
          match env.refresh (pageCount + 1) with
          | .error _ => (acc, 1)
          | .ok none => (acc, 1)
          | .ok (some t2) =>
            ((paginateLoop env fuel (pageCount + 1) (some t2) acc).1,
             (paginateLoop env fuel (pageCount + 1) (some t2) acc).2 + 1)
        else (acc, 0) := rfl

/-- The guard pageCount < 3 only admits a token refresh on the first two
paginated pages, so a run performs at most 2 - pageCount further refreshes. -/
theorem paginateLoop_refresh_bound (env : PaginationEnv) :
    ∀ (fuel pageCount : Nat) (tok : Option String) (acc : List String),
      (paginateLoop env fuel pageCount tok acc).2 ≤ 2 - pageCount := by
  intro fuel
  induction fuel with
  | zero =>
    intro pageCount tok acc
    cases tok with
    | none => exact Nat.zero_le _
    | some t => exact Nat.zero_le _
  | succ fuel ih =>
    intro pageCount tok acc
    cases tok with
    | none => exact Nat.zero_le _
    | some t =>
      rw [paginateLoop_succ_some]
      cases hstep : env.step (pageCount + 1) t with
      | ok res =>
        dsimp only
        by_cases h1 : (addAll acc res.1).length - acc.length = 0
        · rw [if_pos h1]
          by_cases h2 : (addAll (addAll acc res.1) (env.alt (pageCount + 1) t)).length -
              (addAll acc res.1).length = 0
          · rw [if_pos h2]
            exact Nat.zero_le _
          · rw [if_neg h2]
            have := ih (pageCount + 1) res.2
              (addAll (addAll acc res.1) (env.alt (pageCount + 1) t))
            omega
        · rw [if_neg h1]
          have := ih (pageCount + 1) res.2 (addAll acc res.1)
          omega
      | error e =>
        dsimp only
        by_cases hg : pageCount + 1 < 3
        · rw [if_pos hg]
          cases hr : env.refresh (pageCount + 1) with
          | error e2 => dsimp only; omega
          | ok ot =>
            cases ot with
            | none => dsimp only; omega
            | some t2 =>
              dsimp only
              have := ih (pageCount + 1) (some t2) acc
              omega
        · rw [if_neg hg]
          exact Nat.zero_le _

/-- Every exit path of the pagination loop returns at least the ids already
accumulated. -/
theorem paginateLoop_acc_mono (env : PaginationEnv) :
    ∀ (fuel pageCount : Nat) (tok : Option String) (acc : List String),
      ∀ x ∈ acc, x ∈ (paginateLoop env fuel pageCount tok acc).1 := by
  intro fuel
  induction fuel with
  | zero =>
    intro pageCount tok acc x hx
    cases tok with
    | none => exact hx
    | some t => exact hx
  | succ fuel ih =>
    intro pageCount tok acc x hx
    cases tok with
    | none => exact hx
    | some t =>
      rw [paginateLoop_succ_some]
      cases hstep : env.step (pageCount + 1) t with
      | ok res =>
        dsimp only
        by_cases h1 : (addAll acc res.1).length - acc.length = 0
        · rw [if_pos h1]
          by_cases h2 : (addAll (addAll acc res.1) (env.alt (pageCount + 1) t)).length -
              (addAll acc res.1).length = 0
          · rw [if_pos h2]
            exact mem_addAll_left _ _ _ (mem_addAll_left _ _ _ hx)
          · rw [if_neg h2]
            exact ih (pageCount + 1) res.2 _ x
              (mem_addAll_left _ _ _ (mem_addAll_left _ _ _ hx))
        · rw [if_neg h1]
          exact ih (pageCount + 1) res.2 _ x (mem_addAll_left _ _ _ hx)
      | error e =>
        dsimp only
        by_cases hg : pageCount + 1 < 3
        · rw [if_pos hg]
          cases hr : env.refresh (pageCount + 1) with
          | error e2 => exact hx
          | ok ot =>
            cases ot with
            | none => exact hx
            | some t2 => exact ih (pageCount + 1) (some t2) acc x hx
        · rw [if_neg hg]
          exact hx

/-- C8 counterexample environment: every paginated page fetch throws, and
every token refresh succeeds with a fresh token. -/
def c8env : PaginationEnv :=
  ⟨fun _ _ => .error (), fun _ _ => [], fun _ => .ok (some "tk")⟩

/-- C8 counterexample: with page errors on every page and a refresh always
available, only 2 token-refresh recoveries are attempted before pagination
gives up (the error on page 3 hits the pageCount < 3 guard), not 3 as
claimed; the accumulated ids are still returned. -/
theorem c8_counterexample :
    scrapeWithAggressivePagination c8env ["a1"] (some "t0") = (["a1"], 2) ∧
    c8env.step 3 "tk" = .error () ∧
    c8env.refresh 3 = .ok (some "tk") := by
  decide

/-- C8 amended.  On page-level fetch errors at most 2 token-refresh recoveries
are ever attempted (the guard pageCount < 3 admits a refresh only while the
failing page is the first or second paginated page) before pagination gives
up; pagination failure is never propagated as an error: the function always
returns the ids accumulated so far, in particular everything found on the
initial page. -/
theorem c8_amended_two_refreshes (env : PaginationEnv) (initialIds : List String)
    (initialToken : Option String) :
    (scrapeWithAggressivePagination env initialIds initialToken).2 ≤ 2 ∧
    ∀ x ∈ initialIds, x ∈ (scrapeWithAggressivePagination env initialIds initialToken).1 := by
  constructor
  · exact paginateLoop_refresh_bound env maxPages 0 initialToken (addAll [] initialIds)
  · intro x hx
    exact paginateLoop_acc_mono env maxPages 0 initialToken _ x (mem_addAll_right _ _ _ hx)

/-- C8 amended witness. -/
theorem c8_amended_two_refreshes_witness :
    (scrapeWithAggressivePagination c8env ["a1"] (some "t0")).2 ≤ 2 ∧
    "a1" ∈ (scrapeWithAggressivePagination c8env ["a1"] (some "t0")).1 :=
  ⟨(c8_amended_two_refreshes c8env ["a1"] (some "t0")).1,
   (c8_amended_two_refreshes c8env ["a1"] (some "t0")).2 "a1" (by decide)⟩

/-! ## Handler shape lemmas for the ignoreCache = false path -/

theorem respPart_false (allIds : List String) (cache : Cache) (now : Int)
    (fresh : List VideoRecord) :
    respPart false allIds cache now fresh =
      allIds.filterMap (mapGet (cachedRecords cache now allIds ++ fresh)) := by
  unfold respPart
  rw [if_neg Bool.false_ne_true]

theorem writesPart_false (now : Int) (fresh : List VideoRecord) :
    writesPart false now fresh =
      if fresh ≠ [] ∧ mkPayload now fresh ≠ [] then [mkPayload now fresh] else [] := by
  unfold writesPart
  by_cases h : fresh ≠ [] ∧ mkPayload now fresh ≠ []
  · rw [if_pos ⟨h.1, rfl, h.2⟩, if_pos h]
  · rw [if_neg, if_neg h]
    rintro ⟨h1, -, h3⟩
    exact h ⟨h1, h3⟩

theorem writesPart_nil (ic : Bool) (now : Int) : writesPart ic now [] = [] := by
  unfold writesPart
  rw [if_neg]
  rintro ⟨h, -⟩
  exact h rfl

/-- With ignoreCache = false the handler reads the cache, fetches the
remainder in batches, and (on success) issues the single end-of-run upsert. -/
theorem runHandler_false_eq (inp : HandlerInput) (cache : Cache) (now : Int)
    (api : List String → Except String (List ApiItem)) (w : String → Option String)
    (hic : inp.ignoreCache = false) :
    runHandler inp cache now api w =
      if (finalIdsAndTypes inp).1 = [] then ⟨.ok [], [], cache⟩
      else
        match runBatches api (finalIdsAndTypes inp).2 w
            (chunks 50 (toFetch cache now (finalIdsAndTypes inp).1)) with
        | .error e => ⟨.error e, [], cache⟩
        | .ok fresh =>
          ⟨.ok ((finalIdsAndTypes inp).1.filterMap
              (mapGet (cachedRecords cache now (finalIdsAndTypes inp).1 ++ fresh))),
           writesPart false now fresh,
           (writesPart false now fresh).foldl upsertRows cache⟩ := by
  unfold runHandler handlerCore
  by_cases hA : (finalIdsAndTypes inp).1 = []
  · simp only [if_pos hA]
  · simp only [if_neg hA, hic, Bool.false_eq_true, if_false, respPart_false]

/-- Decomposition of the writer output: a write call is always the full
definitive payload. -/
theorem writesPart_mem (ic : Bool) (now : Int) (fresh : List VideoRecord)
    (p : List CacheRow) (h : p ∈ writesPart ic now fresh) :
    p = mkPayload now fresh := by
  unfold writesPart at h
  by_cases hc : fresh ≠ [] ∧ ic = false ∧ mkPayload now fresh ≠ []
  · rw [if_pos hc] at h
    rw [List.mem_singleton] at h
    exact h
  · rw [if_neg hc] at h
    cases h

theorem writesPart_length (ic : Bool) (now : Int) (fresh : List VideoRecord) :
    (writesPart ic now fresh).length ≤ 1 := by
  unfold writesPart
  by_cases hc : fresh ≠ [] ∧ ic = false ∧ mkPayload now fresh ≠ []
  · rw [if_pos hc]
    exact Nat.le_refl 1
  · rw [if_neg hc]
    exact Nat.zero_le 1

theorem mkPayload_definitive (now : Int) (fresh : List VideoRecord) (row : CacheRow)
    (h : row ∈ mkPayload now fresh) : definitiveB row.data.status = true := by
  unfold mkPayload at h
  rw [List.mem_map] at h
  obtain ⟨r, hr, hrow⟩ := h
  rw [List.mem_filter] at hr
  rw [← hrow]
  exact hr.2

/-! ## C3: cache write timing and contents -/

def c3ids : List String := (List.range 51).map (fun n => "v" ++ toString n)

/-- Batch oracle that answers the first batch (v0..v49) and fails on the
second (the batch containing v50). -/
def c3api : List String → Except String (List ApiItem) :=
  fun batch =>
    if batch.contains "v50" then .error "quotaExceeded"
    else .ok (batch.map (fun i => ⟨i, some "T", some "public", none, none, some "PT10S"⟩))

def c3pages : String → Option String := fun _ => none

def c3inp : HandlerInput := ⟨c3ids, none, false⟩

def c3cache : Cache := fun _ => none

def exceptIsOk {ε α : Type} : Except ε α → Bool
  | .ok _ => true
  | .error _ => false

def c3batch1 : List String := (chunks 50 c3ids).headD []

def c3recs : List VideoRecord :=
  match processBatch c3api [] c3pages c3batch1 with
  | .ok rs => rs
  | .error _ => []

/-- C3 counterexample: with 51 requested ids the first batch of 50 is
processed successfully and yields 50 definitive (public) records, yet the run
as a whole performs no cache upsert at all, because the only upsert sits after
the batch loop and the second batch fails: the records of the processed first
batch are never persisted, contradicting the per-batch upsert claim. -/
theorem c3_counterexample :
    exceptIsOk (processBatch c3api [] c3pages c3batch1) = true ∧
    c3recs.length = 50 ∧
    c3recs.all (fun r => definitiveB r.status) = true ∧
    (runHandler c3inp c3cache 0 c3api c3pages).writes = [] ∧
    exceptIsOk (runHandler c3inp c3cache 0 c3api c3pages).response = false := by
  decide

/-- C3 amended.  The cache write is a single upsert issued once after all
batches have been processed, not one per batch: a run makes at most one upsert
call, every row it writes carries a definitive status (so non-definitive
statuses are never persisted, with upsert-by-id semantics), and a run whose
batch loop fails persists nothing, leaving the cache untouched. -/
theorem c3_amended_single_upsert (inp : HandlerInput) (cache : Cache) (now : Int)
    (api : List String → Except String (List ApiItem)) (w : String → Option String) :
    (∀ p ∈ (runHandler inp cache now api w).writes, ∀ row ∈ p,
      definitiveB row.data.status = true) ∧
    (runHandler inp cache now api w).writes.length ≤ 1 ∧
    (∀ e, (runHandler inp cache now api w).response = .error e →
      (runHandler inp cache now api w).writes = [] ∧
      (runHandler inp cache now api w).cacheAfter = cache) := by
  unfold runHandler handlerCore
  by_cases hA : (finalIdsAndTypes inp).1 = []
  · simp only [if_pos hA]
    refine ⟨?_, ?_, ?_⟩
    · intro p hp
      cases hp
    · exact Nat.zero_le 1
    · intro e h
      exact Except.noConfusion h
  · simp only [if_neg hA]
    cases hB : runBatches api (finalIdsAndTypes inp).2 w
        (chunks 50 (if inp.ignoreCache then (finalIdsAndTypes inp).1
          else toFetch cache now (finalIdsAndTypes inp).1)) with
    | error e =>
      dsimp only
      refine ⟨?_, ?_, ?_⟩
      · intro p hp
        cases hp
      · exact Nat.zero_le 1
      · intro e2 h
        exact ⟨rfl, rfl⟩
    | ok fresh =>
      dsimp only
      refine ⟨?_, writesPart_length _ _ _, ?_⟩
      · intro p hp row hrow
        rw [writesPart_mem _ _ _ _ hp] at hrow
        exact mkPayload_definitive now fresh row hrow
      · intro e h
        exact Except.noConfusion h

/-- C3 amended witness: the failing-batch run writes nothing and leaves the
cache unchanged. -/
theorem c3_amended_single_upsert_witness :
    (runHandler c3inp c3cache 0 c3api c3pages).writes = [] ∧
    (runHandler c3inp c3cache 0 c3api c3pages).cacheAfter = c3cache :=
  (c3_amended_single_upsert c3inp c3cache 0 c3api c3pages).2.2 "quotaExceeded" (by decide)

/-! ## C4: output ordering -/

theorem map_id_filterMap_mapGet : ∀ (ids : List String) (pool : List VideoRecord),
    (∀ i ∈ ids, i ∈ pool.map (fun r => r.id)) →
    (ids.filterMap (mapGet pool)).map (fun r => r.id) = ids := by
  intro ids
  induction ids with
  | nil => intro pool _; rfl
  | cons i rest ih =>
    intro pool hcov
    rw [List.filterMap_cons]
    cases hm : mapGet pool i with
    | none =>
      have := mapGet_isSome pool i (hcov i (List.mem_cons_self i rest))
      rw [hm] at this
      cases this
    | some r =>
      dsimp only
      rw [List.map_cons, mapGet_id pool i r hm,
        ih pool (fun j hj => hcov j (List.mem_cons_of_mem i hj))]

theorem cachedRecords_ids_mem (cache : Cache) (now : Int) (allIds : List String)
    (i : String) (d : CachedData) (hwf : CacheWF cache) (hm : i ∈ allIds)
    (h : freshHit cache now i = some d) :
    i ∈ (cachedRecords cache now allIds).map (fun r => r.id) := by
  rw [List.mem_map]
  refine ⟨d.toRecord true, ?_, freshHit_id cache now i d hwf h⟩
  unfold cachedRecords
  rw [List.mem_filterMap]
  refine ⟨i, hm, ?_⟩
  rw [h]
  rfl

/-- Batch oracle answering every id as a public video. -/
def c4api : List String → Except String (List ApiItem) :=
  fun batch => .ok (batch.map (fun i => ⟨i, some "T", some "public", none, none, some "PT10S"⟩))

def c4run : HandlerOut :=
  runHandler ⟨["dA", "dA"], none, true⟩ (fun _ => none) 0 c4api (fun _ => none)

def respIds (out : HandlerOut) : List String :=
  match out.response with
  | .ok rs => rs.map (fun r => r.id)
  | .error _ => []

/-- C4 counterexample: a request with duplicated explicit ids and no channel
is not deduplicated (the Set union only runs in the channel branch), so the
same id appears twice in the output, contradicting the claim that every id
appears at most once. -/
theorem c4_counterexample :
    respIds c4run = ["dA", "dA"] ∧ ¬ (respIds c4run).Nodup := by
  decide

/-- C4 amended.  Provided the final id list (explicit ids in their supplied
order, channel-discovered ids appended, deduplicated only when a channel is
given) is pairwise distinct and the cache well formed, a successful response
carries exactly one record per requested id, in exactly the caller ordering;
with duplicated explicit ids and no channel, duplicates are echoed.  No id is
dropped: the cache read and the batch loop cover every requested id. -/
theorem c4_amended_order_preserved (inp : HandlerInput) (cache : Cache) (now : Int)
    (api : List String → Except String (List ApiItem)) (w : String → Option String)
    (results : List VideoRecord)
    (hwf : CacheWF cache)
    (hnd : ((finalIdsAndTypes inp).1).Nodup)
    (hok : (runHandler inp cache now api w).response = .ok results) :
    results.map (fun r => r.id) = (finalIdsAndTypes inp).1 ∧
    (results.map (fun r => r.id)).Nodup := by
  suffices h : results.map (fun r => r.id) = (finalIdsAndTypes inp).1 by
    exact ⟨h, h ▸ hnd⟩
  cases hic : inp.ignoreCache with
  | true =>
    rw [runHandler_true_eq inp cache now api w hic] at hok
    by_cases hA : (finalIdsAndTypes inp).1 = []
    · rw [if_pos hA] at hok
      have hok2 : Except.ok ([] : List VideoRecord) = .ok results := hok
      injection hok2 with hok2
      rw [← hok2, hA]
      rfl
    · rw [if_neg hA] at hok
      cases hB : runBatches api (finalIdsAndTypes inp).2 w
          (chunks 50 (finalIdsAndTypes inp).1) with
      | error e =>
        rw [hB] at hok
        exact Except.noConfusion hok
      | ok fresh =>
        rw [hB] at hok
        have hok2 : Except.ok ((finalIdsAndTypes inp).1.filterMap (mapGet fresh)) =
            .ok results := hok
        injection hok2 with hok2
        rw [← hok2]
        apply map_id_filterMap_mapGet
        intro i hi
        rw [runBatches_ok_ids _ _ _ _ _ hB, chunks_flatten 50 (by omega)]
        exact hi
  | false =>
    rw [runHandler_false_eq inp cache now api w hic] at hok
    by_cases hA : (finalIdsAndTypes inp).1 = []
    · rw [if_pos hA] at hok
      have hok2 : Except.ok ([] : List VideoRecord) = .ok results := hok
      injection hok2 with hok2
      rw [← hok2, hA]
      rfl
    · rw [if_neg hA] at hok
      cases hB : runBatches api (finalIdsAndTypes inp).2 w
          (chunks 50 (toFetch cache now (finalIdsAndTypes inp).1)) with
      | error e =>
        rw [hB] at hok
        exact Except.noConfusion hok
      | ok fresh =>
        rw [hB] at hok
        have hok2 : Except.ok ((finalIdsAndTypes inp).1.filterMap
            (mapGet (cachedRecords cache now (finalIdsAndTypes inp).1 ++ fresh))) =
            .ok results := hok
        injection hok2 with hok2
        rw [← hok2]
        apply map_id_filterMap_mapGet
        intro i hi
        rw [List.map_append, List.mem_append]
        cases hfi : freshHit cache now i with
        | some d =>
          exact Or.inl (cachedRecords_ids_mem cache now _ i d hwf hi hfi)
        | none =>
          refine Or.inr ?_
          rw [runBatches_ok_ids _ _ _ _ _ hB, chunks_flatten 50 (by omega)]
          unfold toFetch
          rw [List.mem_filter]
          refine ⟨hi, ?_⟩
          rw [hfi]
          rfl

def c4winp : HandlerInput := ⟨["wC", "wD"], none, true⟩

def c4wres : List VideoRecord :=
  match (runHandler c4winp (fun _ => none) 7 c4api (fun _ => none)).response with
  | .ok rs => rs
  | .error _ => []

/-- C4 amended witness. -/
theorem c4_amended_order_preserved_witness :
    c4wres.map (fun r => r.id) = (finalIdsAndTypes c4winp).1 ∧
    (c4wres.map (fun r => r.id)).Nodup :=
  c4_amended_order_preserved c4winp (fun _ => none) 7 c4api (fun _ => none) c4wres
    (fun _ _ h => Option.noConfusion h) (by decide) (by decide)

/-! ## C5: idempotence within the freshness window -/

/-- C5.  Resolving an id list once with ignoreCache = false against a cache
holding no fresh entry for those ids, and resolving the same list again within
the 24-hour window, yields the same records with fromCache flipped to true and
leaves the cache exactly as the first call wrote it.  The id list is assumed
deduplicated (the resolver input per the spec) and every first-call status
definitive (the API contract; a non-definitive status is not persisted and
would be re-fetched). -/
theorem c5_idempotent (inp : HandlerInput) (cache cache1 : Cache) (now1 now2 : Int)
    (api : List String → Except String (List ApiItem)) (w : String → Option String)
    (results : List VideoRecord)
    (hic : inp.ignoreCache = false)
    (hnd : ((finalIdsAndTypes inp).1).Nodup)
    (hnofresh : ∀ i ∈ (finalIdsAndTypes inp).1, freshHit cache now1 i = none)
    (hresp : (runHandler inp cache now1 api w).response = .ok results)
    (hcache : (runHandler inp cache now1 api w).cacheAfter = cache1)
    (hdef : ∀ r ∈ results, definitiveB r.status = true)
    (hwin : now2 - 86400000 < now1) :
    (runHandler inp cache1 now2 api w).response =
      .ok (results.map (fun r => { r with fromCache := true })) ∧
    (runHandler inp cache1 now2 api w).cacheAfter = cache1 := by
  rw [runHandler_false_eq inp cache now1 api w hic] at hresp hcache
  rw [runHandler_false_eq inp cache1 now2 api w hic]
  by_cases hA : (finalIdsAndTypes inp).1 = []
  · rw [if_pos hA] at hresp hcache ⊢
    have hres2 : Except.ok ([] : List VideoRecord) = .ok results := hresp
    injection hres2 with hres2
    rw [← hres2]
    exact ⟨rfl, rfl⟩
  · rw [if_neg hA] at hresp hcache ⊢
    rw [toFetch_of_noFresh cache now1 _ hnofresh] at hresp hcache
    cases hB : runBatches api (finalIdsAndTypes inp).2 w
        (chunks 50 (finalIdsAndTypes inp).1) with
    | error e =>
      rw [hB] at hresp
      exact Except.noConfusion hresp
    | ok fresh =>
      rw [hB] at hresp hcache
      have hids : fresh.map (fun r => r.id) = (finalIdsAndTypes inp).1 := by
        rw [runBatches_ok_ids _ _ _ _ _ hB, chunks_flatten 50 (by omega)]
      have hcr1 : cachedRecords cache now1 (finalIdsAndTypes inp).1 = [] :=
        cachedRecords_of_noFresh cache now1 _ hnofresh
      have hresults : results = fresh := by
        have h2 : Except.ok ((finalIdsAndTypes inp).1.filterMap
            (mapGet (cachedRecords cache now1 (finalIdsAndTypes inp).1 ++ fresh))) =
            .ok results := hresp
        injection h2 with h2
        rw [hcr1, List.nil_append] at h2
        rw [← h2, ← hids]
        exact filterMap_mapGet_self fresh (by rw [hids]; exact hnd)
      rw [hresults] at hdef ⊢
      have hfresh_ne : fresh ≠ [] := by
        intro h0
        apply hA
        rw [← hids, h0]
        rfl
      have hpayload : mkPayload now1 fresh =
          fresh.map (fun r => ⟨r.id, r.toCachedData, now1⟩) := by
        unfold mkPayload
        rw [List.filter_eq_self.mpr hdef]
      have hpayload_ne : mkPayload now1 fresh ≠ [] := by
        rw [hpayload]
        intro h0
        cases hf : fresh with
        | nil => exact hfresh_ne hf
        | cons a l =>
          rw [hf] at h0
          exact List.noConfusion h0
      have hcache1 : cache1 = upsertRows cache (mkPayload now1 fresh) := by
        rw [← hcache]
        show ((writesPart false now1 fresh).foldl upsertRows cache) = _
        rw [writesPart_false, if_pos ⟨hfresh_ne, hpayload_ne⟩]
        rfl
      have hkeys : ((mkPayload now1 fresh).map (fun row => row.video_id)).Nodup := by
        rw [hpayload, List.map_map]
        show (fresh.map (fun r => r.id)).Nodup
        rw [hids]
        exact hnd
      have hhit2 : ∀ r ∈ fresh, freshHit cache1 now2 r.id = some r.toCachedData := by
        intro r hr
        have hrow : (⟨r.id, r.toCachedData, now1⟩ : CacheRow) ∈ mkPayload now1 fresh := by
          rw [hpayload]
          exact List.mem_map_of_mem _ hr
        have hup := upsertRows_mem (mkPayload now1 fresh) cache
          ⟨r.id, r.toCachedData, now1⟩ hkeys hrow
        rw [hcache1, freshHit_eq _ now2 r.id r.toCachedData now1 hup, if_pos hwin]
      have hcr2 : cachedRecords cache1 now2 (finalIdsAndTypes inp).1 =
          fresh.map (fun r => { r with fromCache := true }) := by
        unfold cachedRecords
        rw [← hids, List.filterMap_map]
        apply filterMapEqMapMem
        intro r hr
        show ((freshHit cache1 now2 r.id).map (fun d => d.toRecord true)) = _
        rw [hhit2 r hr]
        rfl
      have htf2 : toFetch cache1 now2 (finalIdsAndTypes inp).1 = [] := by
        unfold toFetch
        rw [List.filter_eq_nil_iff]
        intro i hi
        rw [← hids, List.mem_map] at hi
        obtain ⟨r, hr, hri⟩ := hi
        rw [← hri, hhit2 r hr]
        intro hcon
        exact Bool.noConfusion hcon
      have hB2 : runBatches api (finalIdsAndTypes inp).2 w
          (chunks 50 (toFetch cache1 now2 (finalIdsAndTypes inp).1)) = .ok [] := by
        rw [htf2]
        rfl
      rw [hB2]
      constructor
      · show Except.ok ((finalIdsAndTypes inp).1.filterMap
            (mapGet (cachedRecords cache1 now2 (finalIdsAndTypes inp).1 ++ []))) = _
        rw [List.append_nil, hcr2]
        have hids2 : ((fresh.map (fun r => { r with fromCache := true })).map
            (fun r => r.id)) = (finalIdsAndTypes inp).1 := by
          rw [List.map_map]
          show fresh.map (fun r => r.id) = _
          exact hids
        rw [← hids2, filterMap_mapGet_self _ (by rw [hids2]; exact hnd)]
      · show ((writesPart false now2 []).foldl upsertRows cache1) = cache1
        rw [writesPart_nil]
        rfl

def c5api : List String → Except String (List ApiItem) :=
  fun batch => .ok (batch.map (fun i => ⟨i, some "T", some "public", none, none, some "PT10S"⟩))

def c5inp : HandlerInput := ⟨["iA"], none, false⟩

def c5cache : Cache := fun _ => none

def c5res : List VideoRecord :=
  match (runHandler c5inp c5cache 1000 c5api (fun _ => none)).response with
  | .ok rs => rs
  | .error _ => []

/-- C5 witness: a concrete double resolution with an empty starting cache. -/
theorem c5_idempotent_witness :
    (runHandler c5inp ((runHandler c5inp c5cache 1000 c5api (fun _ => none)).cacheAfter) 2000
        c5api (fun _ => none)).response =
      .ok (c5res.map (fun r => { r with fromCache := true })) ∧
    (runHandler c5inp ((runHandler c5inp c5cache 1000 c5api (fun _ => none)).cacheAfter) 2000
        c5api (fun _ => none)).cacheAfter =
      (runHandler c5inp c5cache 1000 c5api (fun _ => none)).cacheAfter :=
  c5_idempotent c5inp c5cache
    ((runHandler c5inp c5cache 1000 c5api (fun _ => none)).cacheAfter)
    1000 2000 c5api (fun _ => none) c5res
    rfl (by decide) (by decide) (by decide) rfl (by decide) (by decide)

/-- Batch oracle whose items carry no privacyStatus field. -/
def c5badApi : List String → Except String (List ApiItem) :=
  fun batch => .ok (batch.map (fun i => ⟨i, some "T", none, none, none, some "PT10S"⟩))

def c5bad1 : HandlerOut :=
  runHandler ⟨["uA"], none, false⟩ (fun _ => none) 1000 c5badApi (fun _ => none)

def c5bad2 : HandlerOut :=
  runHandler ⟨["uA"], none, false⟩ c5bad1.cacheAfter 2000 c5badApi (fun _ => none)

def c5badRecs1 : List VideoRecord :=
  match c5bad1.response with
  | .ok rs => rs
  | .error _ => []

/-- C5 counterexample: a batch entry without privacyStatus resolves to the
sentinel status unknown, which is not definitive and therefore never cached;
the second resolution within the window re-fetches it and returns
fromCache = false, not the claimed fromCache = true copy. -/
theorem c5_counterexample :
    c5badRecs1.map (fun r => (r.id, r.status, r.fromCache)) =
      [("uA", "unknown", false)] ∧
    (match c5bad2.response with
     | .ok rs => rs.map (fun r => (r.id, r.status, r.fromCache))
     | .error _ => []) = [("uA", "unknown", false)] ∧
    c5bad2.response ≠ .ok (c5badRecs1.map (fun r => { r with fromCache := true })) := by
  decide

end Tvi
